import Mathlib

/-!
Verification of the build-or-reuse cache engine of
`src/stylegan_human/dnnlib/tflib/custom_ops.py` (function `get_plugin` and its
helpers) against its natural-language specification.

Shallow embedding conventions:
  * byte strings (Python `bytes`, `str` at the OS boundary) are `List Nat`;
  * the MD5 accumulator is modelled by the exact byte stream fed into it via
    the successive `md5.update(...)` calls (MD5 itself is an external library
    function; equality of the input streams entails equality of the digests,
    and the abstract hex digest is a parameter of the environment);
  * the filesystem is a map from paths to file contents; external collaborators
    (nvcc, the GPU query, `tf.load_op_library`, `uuid4`) are fields of an
    environment record, each recording the outcome of the corresponding call;
  * the module-level dict `_plugin_cache` is threaded explicitly as an
    association list.
-/

namespace CustomOps

/-- Byte strings: Python `bytes` values, one `Nat` per byte. -/
abbrev Bytes := List Nat

/-- Decode an ASCII Lean string literal to its byte list. -/
def strBytes (s : String) : Bytes := s.data.map Char.toNat

/-- The double-quote byte, written numerically to keep source literals plain. -/
def qt : Bytes := [34]

/-- Python `os.name`: the two platforms the source supports (`assert False`
rules out anything else at line 141 of the source). -/
inductive OS
  | posix
  | nt
deriving DecidableEq

/-- Path separator of each platform (`/` respectively `\`). -/
def sepOS : OS → Nat
  | OS.posix => 47
  | OS.nt => 92

/-- Python `os.path.join(a, b)` for a relative-or-absolute right operand:
if `b` starts with the separator it replaces `a`; otherwise it is appended,
inserting a separator unless `a` is empty or already ends with one.
(Windows drive-letter handling is irrelevant here and omitted.) -/
def pjoin (os : OS) (a b : Bytes) : Bytes :=
  if b.head? = some (sepOS os) then b
  else if a = [] then b
  else if a.getLast? = some (sepOS os) then a ++ b
  else a ++ [sepOS os] ++ b

/-- Python `os.path.basename`: the part after the last separator
(`ntpath` also splits on `/`). -/
def basenameOS (os : OS) (p : Bytes) : Bytes :=
  match os with
  | OS.posix => (p.reverse.takeWhile (fun b => !(b == 47))).reverse
  | OS.nt => (p.reverse.takeWhile (fun b => !(b == 47) && !(b == 92))).reverse

/-- Index of the last dot in a byte string, if any. -/
def lastDotIdx (b : Bytes) : Option Nat :=
  (b.reverse.findIdx? (fun c => c == 46)).map (fun j => b.length - 1 - j)

/-- Root part of Python `os.path.splitext` applied to a basename: split at the
last dot unless every byte before it is itself a dot (CPython
`genericpath._splitext`). -/
def splitextStem (b : Bytes) : Bytes :=
  match lastDotIdx b with
  | none => b
  | some i => if (b.take i).any (fun c => !(c == 46)) then b.take i else b

/-- Extension part of Python `os.path.splitext` applied to a basename. -/
def splitextExt (b : Bytes) : Bytes :=
  match lastDotIdx b with
  | none => []
  | some i => if (b.take i).any (fun c => !(c == 46)) then b.drop i else []

/-- ASCII whitespace test used by Python `str.strip()`. -/
def isWsp (b : Nat) : Bool :=
  (b == 32) || (b == 9) || (b == 10) || (b == 13) || (b == 11) || (b == 12)

/-- Python `str.strip()`: drop whitespace from both ends. -/
def pyStrip (l : Bytes) : Bytes :=
  ((l.dropWhile isWsp).reverse.dropWhile isWsp).reverse

/-- Python `s.replace(chr(92), chr(47))`: normalize backslashes to slashes
(source line 125). -/
def normSlash (p : Bytes) : Bytes :=
  p.map (fun b => if b = 92 then 47 else b)

/-- Worker for `replaceAll`: scan the list left to right; a positive skip
counter means the scanner is still consuming bytes of an occurrence that has
already been replaced. -/
def replGo (pat rep : Bytes) : Bytes → Nat → Bytes
  | [], _ => []
  | _ :: t, k + 1 => replGo pat rep t k
  | a :: t, 0 =>
    if pat.isPrefixOf (a :: t) ∧ 1 ≤ pat.length then
      rep ++ replGo pat rep t (pat.length - 1)
    else
      a :: replGo pat rep t 0

/-- Python `bytes.replace(pat, rep)` for a nonempty pattern: replace every
non-overlapping occurrence, scanning left to right (source line 129; the
pattern there is a quoted file path, hence never empty). -/
def replaceAll (pat rep l : Bytes) : Bytes :=
  replGo pat rep l 0

/-- Source line 125: `('"' + cuda_file.replace(chr(92), chr(47)) + '"').encode()`,
the quoted slash-normalized path as it appears in preprocessor output. -/
def badFileStr (cudaFile : Bytes) : Bytes :=
  qt ++ normSlash cudaFile ++ qt

/-- Source line 126: `f-string quote cuda_file_base quote`, the quoted basename
that replaces the full path before hashing. -/
def goodFileStr (os : OS) (cudaFile : Bytes) : Bytes :=
  qt ++ basenameOS os cudaFile ++ qt

/-- The bytes of the Python prefix literal `b"# "` (line-number pragma). -/
def pragmaHash : Bytes := [35, 32]

/-- The bytes of the Python prefix literal `b"#line "` (line-number pragma). -/
def pragmaLine : Bytes := [35, 108, 105, 110, 101, 32]

/-- Source line 128: a preprocessed line is hashed only when it starts with
neither `b"# "` nor `b"#line "`. -/
def keepLine (ln : Bytes) : Bool :=
  !(pragmaHash.isPrefixOf ln) && !(pragmaLine.isPrefixOf ln)

/-- Label bytes of the hashed line `nvcc_cmd: ...` (source line 147). -/
def nvccLabel : Bytes := strBytes "nvcc_cmd: "

/-- Label bytes of the hashed line `tf.VERSION: ...` (source line 148). -/
def tfLabel : Bytes := strBytes "tf.VERSION: "

/-- Label bytes of the hashed line `cuda_cache_version_tag: ...`
(source lines 149-152). -/
def tagLabel : Bytes := strBytes "cuda_cache_version_tag: "

/-- Module global `cuda_cache_version_tag = "v1"` (source line 25). -/
def cuda_cache_version_tag : Bytes := strBytes "v1"

/-- Module global `do_not_hash_included_headers = False` (source line 26). -/
def do_not_hash_included_headers : Bool := false

/-- The full byte stream fed to the MD5 accumulator of `get_plugin`
(source lines 108-152), transcribed update by update:
source bytes, then a newline; when header hashing is enabled a fold over the
preprocessed lines (skipping pragma lines, rewriting the quoted path) followed
by a newline; then the three labelled configuration lines, each ending in a
newline. -/
def digestInput (src : Bytes) (hashHeaders : Bool) (bad good : Bytes)
    (lines : List Bytes) (nvccCmd tfVer tag : Bytes) : Bytes :=
  let h1 := src ++ [10]
  let h2 :=
    if hashHeaders then
      (lines.foldl
        (fun acc ln => if keepLine ln then acc ++ replaceAll bad good ln else acc)
        h1) ++ [10]
    else h1
  ((h2 ++ (nvccLabel ++ nvccCmd ++ [10])) ++ (tfLabel ++ tfVer ++ [10]))
    ++ (tagLabel ++ tag ++ [10])

/-- The normalized preprocessed output: concatenation of the non-pragma lines
after replacing the quoted path by the quoted basename (the bytes contributed
to the digest by the loop at source lines 127-130). -/
def normalizedPP (bad good : Bytes) (lines : List Bytes) : Bytes :=
  ((lines.filter keepLine).map (replaceAll bad good)).flatten

/-- Chunks joined with a trailing newline delimiter after each one. -/
def joinln (cs : List Bytes) : Bytes :=
  (cs.map (fun c => c ++ [10])).flatten

/-- The delimited segment stream hashed by `get_plugin`, as a function of the
triple (raw source bytes, normalized preprocessed bytes, ordered
build-configuration strings): each segment is followed by the newline
delimiter byte. -/
def segStream (src pp : Bytes) (cfgs : List Bytes) : Bytes :=
  src ++ [10] ++ pp ++ [10] ++ joinln cfgs

/-- A token of a preprocessed-output template: either a literal byte chunk or
a placeholder for the quoted source path. Used to state that two preprocessed
outputs are identical except that each mentions its own source path. -/
inductive Tok
  | lit (c : Bytes)
  | ph
deriving DecidableEq

/-- Instantiate one template token with a concrete quoted path. -/
def renderTok (pat : Bytes) : Tok → Bytes
  | Tok.lit c => c
  | Tok.ph => pat

/-- Instantiate a whole line template with a concrete quoted path. -/
def renderLine (pat : Bytes) (lt : List Tok) : Bytes :=
  (lt.map (renderTok pat)).flatten

/-- Quote-freeness of the literal chunks of a line template: the only
double-quote bytes of the rendered line come from the placeholders. -/
def LitQuoteFree (lt : List Tok) : Prop :=
  ∀ c : Bytes, Tok.lit c ∈ lt → ¬ (34 ∈ c)

/-- The filesystem: a map from paths to file contents. -/
abbrev FS := Bytes → Option Bytes

/-- Write a whole file at a path. -/
def setF (fs : FS) (p c : Bytes) : FS :=
  fun q => if q = p then some c else fs q

/-- The in-process plugin registry `_plugin_cache` (source line 93), threaded
explicitly: an association list from the source path as given to the loaded
plugin handle; insertion prepends. -/
abbrev Reg := List (Bytes × Nat)

/-- Errors raised by the modelled code paths: source read failure, the
`RuntimeError` of `_prepare_nvcc_cli` on Windows without a compiler, the
`RuntimeError` of `_run_cmd` for the preprocessor and compiler invocations,
the `RuntimeError` of `_get_cuda_gpu_arch_string`, the `OSError` of a Windows
`os.rename` onto an existing destination, and a `tf.load_op_library` failure. -/
inductive Err
  | srcReadFail
  | compilerMissing
  | preprocessFail
  | noGpu
  | compileFail
  | renameExists
  | renameNoSrc
  | loadFail
deriving DecidableEq

/-- Externally observable operations performed by one `get_plugin` call, in
order: running the preprocessor, the `os.path.isfile` probe of the cache entry
(with its answer), running the compiler, `os.makedirs` of the cache root,
`shutil.copyfile` into the cache root, `os.rename`, and `tf.load_op_library`. -/
inductive Ev
  | runPreprocess
  | isfile (p : Bytes) (r : Bool)
  | runCompile
  | makedirs (p : Bytes)
  | copyfile (dst : Bytes) (content : Bytes)
  | rename (src dst : Bytes)
  | loadLib (p : Bytes)
deriving DecidableEq

/-- The environment of one `get_plugin` call: platform, external collaborator
outcomes and the per-call random values. `digestHex` stands for
`hashlib.md5(...).hexdigest()` as a function of the accumulated byte stream,
and `uuidHex` for `uuid.uuid4().hex` of this call. -/
structure Env where
  osName : OS
  isdir : Bytes → Bool
  tfInclude : Bytes
  tfLib : Bytes
  tfVersion : Bytes
  dirFile : Bytes
  tmpDirPre : Bytes
  readSrc : Option Bytes
  ppLines : Option (List Bytes)
  gpuArch : Option Bytes
  compiled : Option Bytes
  load : Bytes → Option Nat
  digestHex : Bytes → Bytes
  uuidHex : Bytes

/-- Module global `compiler_bindir_search_path` (source lines 29-33). -/
def compiler_bindir_search_path : List Bytes :=
  [strBytes "C:/Program Files (x86)/Microsoft Visual Studio/2017/Community/VC/Tools/MSVC/14.14.26428/bin/Hostx64/x64",
   strBytes "C:/Program Files (x86)/Microsoft Visual Studio/2019/Community/VC/Tools/MSVC/14.23.28105/bin/Hostx64/x64",
   strBytes "C:/Program Files (x86)/Microsoft Visual Studio 14.0/vc/bin"]

/-- Source lines 38-46: the first entry of the search path that is a
directory, if any. -/
def _find_compiler_bindir (isdir : Bytes → Bool) : Option Bytes :=
  compiler_bindir_search_path.find? isdir

/-- The command line assembled by `_prepare_nvcc_cli` (source lines 69-88)
when it does not raise: `nvcc`, the stripped options, the warning flag, the
four include paths, the optional compiler bindir flag, and the stream
redirection suffix. -/
def assembleNvccCmd (env : Env) (opts : Bytes) (bd : Option Bytes) : Bytes :=
  strBytes "nvcc " ++ pyStrip opts
    ++ strBytes " --disable-warnings"
    ++ strBytes " --include-path " ++ qt ++ env.tfInclude ++ qt
    ++ strBytes " --include-path " ++ qt
    ++ pjoin env.osName
        (pjoin env.osName (pjoin env.osName env.tfInclude (strBytes "external"))
          (strBytes "protobuf_archive"))
        (strBytes "src")
    ++ qt
    ++ strBytes " --include-path " ++ qt
    ++ pjoin env.osName env.tfInclude
        (pjoin env.osName (strBytes "external") (strBytes "com_google_absl"))
    ++ qt
    ++ strBytes " --include-path " ++ qt
    ++ pjoin env.osName env.tfInclude
        (pjoin env.osName (strBytes "external") (strBytes "eigen_archive"))
    ++ qt
    ++ (match bd with
        | none => []
        | some d => strBytes " --compiler-bindir " ++ qt ++ d ++ qt)
    ++ strBytes " 2>&1"

/-- Source lines 69-88 (`_prepare_nvcc_cli`): on Windows a missing compiler
bindir raises `RuntimeError`; on POSIX the flag is simply omitted
(comment at lines 79-80 of the source). -/
def _prepare_nvcc_cli (env : Env) (opts : Bytes) : Except Err Bytes :=
  match _find_compiler_bindir env.isdir with
  | none =>
    if env.osName = OS.nt then Except.error Err.compilerMissing
    else Except.ok (assembleNvccCmd env opts none)
  | some d => Except.ok (assembleNvccCmd env opts (some d))

/-- The compiler options assembled at source lines 133-143: the TensorFlow
link library, on POSIX the PIC/ABI options, then the GPU architecture and
fast-math flags. -/
def compileOpts (env : Env) (arch : Bytes) : Bytes :=
  (match env.osName with
   | OS.nt =>
     qt ++ pjoin OS.nt (pjoin OS.nt env.tfLib (strBytes "python"))
       (strBytes "_pywrap_tensorflow_internal.lib") ++ qt
   | OS.posix =>
     qt ++ pjoin OS.posix (pjoin OS.posix env.tfLib (strBytes "python"))
       (strBytes "_pywrap_tensorflow_internal.so") ++ qt
       ++ strBytes " --compiler-options " ++ [39]
       ++ strBytes "-fPIC -D_GLIBCXX_USE_CXX11_ABI=0" ++ [39])
    ++ strBytes " --gpu-architecture=" ++ arch
    ++ strBytes " --use_fast_math"

/-- The preprocessor options assembled at source line 121: the quoted source
path, the preprocess flag, the quoted temporary output, and the keep options. -/
def ppOptsOf (env : Env) (cudaFile : Bytes) : Bytes :=
  qt ++ cudaFile ++ qt
    ++ strBytes " --preprocess -o " ++ qt
    ++ pjoin env.osName env.tmpDirPre
        (splitextStem (basenameOS env.osName cudaFile) ++ strBytes "_tmp"
          ++ splitextExt (basenameOS env.osName cudaFile))
    ++ qt
    ++ strBytes " --keep --keep-dir " ++ qt ++ env.tmpDirPre ++ qt

/-- Module global `cuda_cache_path` (source line 24): the `_cudacache`
directory next to the module file. -/
def cudaCachePath (env : Env) : Bytes :=
  pjoin env.osName env.dirFile (strBytes "_cudacache")

/-- Source line 155: `.dll` on Windows, `.so` otherwise. -/
def binExt : OS → Bytes
  | OS.nt => strBytes ".dll"
  | OS.posix => strBytes ".so"

/-- The `cuda_file_name` of source line 97: stem of the basename. -/
def stemOf (os : OS) (f : Bytes) : Bytes :=
  splitextStem (basenameOS os f)

/-- The final cache entry path of source lines 156-159:
cache root joined with stem, underscore, hex digest and platform extension. -/
def binFileName (os : OS) (cacheDir stem hex : Bytes) : Bytes :=
  pjoin os cacheDir (stem ++ [95] ++ hex ++ binExt os)

/-- The digest input of one `get_plugin` call, with the call's path-dependent
quoted strings filled in (header hashing is on: the module global
`do_not_hash_included_headers` is `False`). -/
def dInOf (env : Env) (f src : Bytes) (lines : List Bytes) (nvccCmd : Bytes) :
    Bytes :=
  digestInput src (!do_not_hash_included_headers) (badFileStr f)
    (goodFileStr env.osName f) lines nvccCmd env.tfVersion
    cuda_cache_version_tag

/-- The compile command line of source line 144, written as a total function
(its value agrees with `_prepare_nvcc_cli` whenever the latter does not
raise). -/
def nvccCmdOf (env : Env) (arch : Bytes) : Bytes :=
  assembleNvccCmd env (compileOpts env arch) (_find_compiler_bindir env.isdir)

/-- The final cache path computed by one `get_plugin` call. -/
def binOf (env : Env) (f hex : Bytes) : Bytes :=
  binFileName env.osName (cudaCachePath env) (stemOf env.osName f) hex

/-- The final cache path of a fully determined call: environment, path,
source bytes, preprocessed lines and GPU architecture. -/
def binAll (env : Env) (f src arch : Bytes) (lines : List Bytes) : Bytes :=
  binOf env f (env.digestHex (dInOf env f src lines (nvccCmdOf env arch)))

/-- The intermediate publish path of source lines 169-172: cache root joined
with stem, underscore, uuid hex, `_tmp` and the platform extension. -/
def interOf (env : Env) (f : Bytes) : Bytes :=
  pjoin env.osName (cudaCachePath env)
    (stemOf env.osName f ++ [95] ++ env.uuidHex ++ strBytes "_tmp"
      ++ binExt env.osName)

/-- Python `os.rename(src, dst)`: fails when the source is missing; on
Windows it also fails when the destination exists; on POSIX an existing
destination is replaced atomically. -/
def osRename (os : OS) (fs : FS) (src dst : Bytes) : Except Err FS :=
  match fs src with
  | none => Except.error Err.renameNoSrc
  | some c =>
    if os = OS.nt ∧ (fs dst).isSome then Except.error Err.renameExists
    else
      Except.ok (fun q => if q = dst then some c else if q = src then none else fs q)

/-- The publish protocol of source lines 168-174: copy the compiled temporary
artifact to the intermediate cache-root name, then rename it onto the final
name. Returns the resulting filesystem and the error of the rename, if any
(the copied intermediate file stays behind on failure). -/
def publish (os : OS) (fs : FS) (inter bin art : Bytes) : FS × Option Err :=
  match osRename os (setF fs inter art) inter bin with
  | Except.error e => (setF fs inter art, some e)
  | Except.ok fs2 => (fs2, none)

/-- Effect of one event on the filesystem; only the copy and the rename write. -/
def applyEv (fs : FS) : Ev → FS
  | Ev.copyfile dst c => setF fs dst c
  | Ev.rename s d =>
    match fs s with
    | some c => fun q => if q = d then some c else if q = s then none else fs q
    | none => fs
  | _ => fs

/-- Filesystem states observable while one event is in flight: a copy exposes
every prefix of the destination content at the destination path; a rename is
atomic and exposes nothing in between. -/
def duringEv (fs : FS) : Ev → List FS
  | Ev.copyfile dst c =>
    (List.range (c.length + 1)).map (fun k => setF fs dst (c.take k))
  | _ => []

/-- All filesystem states observable while a trace of events runs from `fs`:
the state before each event, the in-flight states of each event, and the
final state. -/
def obsStates : FS → List Ev → List FS
  | fs, [] => [fs]
  | fs, e :: t => fs :: (duringEv fs e ++ obsStates (applyEv fs e) t)

/-- Number of compiler invocations in a trace. -/
def countCompiles (t : List Ev) : Nat :=
  t.countP (fun e => match e with | Ev.runCompile => true | _ => false)

/-- Number of cache-store existence probes in a trace. -/
def countIsfile (t : List Ev) : Nat :=
  t.countP (fun e => match e with | Ev.isfile _ _ => true | _ => false)

/-- Result of one `get_plugin` call: the returned handle or propagated error,
the filesystem and registry after the call, and the trace of externally
observable operations. -/
structure GpOut where
  result : Except Err Nat
  fs : FS
  reg : Reg
  trace : List Ev

/-- Shallow embedding of `get_plugin` (source lines 95-190). The call first
consults the in-process registry; on a miss it hashes the source bytes, the
preprocessed output and the build configuration, probes the cache entry path,
compiles and publishes on a cache miss, loads the artifact and records the
handle in the registry. Every failure propagates (`except: ... raise` at
source lines 187-190) and leaves the registry unchanged. -/
def get_plugin (env : Env) (fs : FS) (reg : Reg) (cuda_file : Bytes) : GpOut :=
  match reg.lookup cuda_file with
  | some plugin => ⟨Except.ok plugin, fs, reg, []⟩
  | none =>
    match env.readSrc with
    | none => ⟨Except.error Err.srcReadFail, fs, reg, []⟩
    | some src =>
      match _prepare_nvcc_cli env (ppOptsOf env cuda_file) with
      | Except.error e => ⟨Except.error e, fs, reg, []⟩
      | Except.ok _ =>
        match env.ppLines with
        | none => ⟨Except.error Err.preprocessFail, fs, reg, [Ev.runPreprocess]⟩
        | some lines =>
          match env.gpuArch with
          | none => ⟨Except.error Err.noGpu, fs, reg, [Ev.runPreprocess]⟩
          | some arch =>
            match _prepare_nvcc_cli env (compileOpts env arch) with
            | Except.error e => ⟨Except.error e, fs, reg, [Ev.runPreprocess]⟩
            | Except.ok nvccCmd =>
              if (fs (binOf env cuda_file
                    (env.digestHex (dInOf env cuda_file src lines nvccCmd)))).isSome
              then
                match env.load (binOf env cuda_file
                    (env.digestHex (dInOf env cuda_file src lines nvccCmd))) with
                | none =>
                  ⟨Except.error Err.loadFail, fs, reg,
                    [Ev.runPreprocess,
                     Ev.isfile (binOf env cuda_file
                       (env.digestHex (dInOf env cuda_file src lines nvccCmd))) true,
                     Ev.loadLib (binOf env cuda_file
                       (env.digestHex (dInOf env cuda_file src lines nvccCmd)))]⟩
                | some plugin =>
                  ⟨Except.ok plugin, fs, (cuda_file, plugin) :: reg,
                    [Ev.runPreprocess,
                     Ev.isfile (binOf env cuda_file
                       (env.digestHex (dInOf env cuda_file src lines nvccCmd))) true,
                     Ev.loadLib (binOf env cuda_file
                       (env.digestHex (dInOf env cuda_file src lines nvccCmd)))]⟩
              else
                match env.compiled with
                | none =>
                  ⟨Except.error Err.compileFail, fs, reg,
                    [Ev.runPreprocess,
                     Ev.isfile (binOf env cuda_file
                       (env.digestHex (dInOf env cuda_file src lines nvccCmd))) false,
                     Ev.runCompile]⟩
                | some art =>
                  match publish env.osName fs (interOf env cuda_file)
                      (binOf env cuda_file
                        (env.digestHex (dInOf env cuda_file src lines nvccCmd))) art with
                  | (fs1, some e) =>
                    ⟨Except.error e, fs1, reg,
                      [Ev.runPreprocess,
                       Ev.isfile (binOf env cuda_file
                         (env.digestHex (dInOf env cuda_file src lines nvccCmd))) false,
                       Ev.runCompile, Ev.makedirs (cudaCachePath env),
                       Ev.copyfile (interOf env cuda_file) art]⟩
                  | (fs2, none) =>
                    match env.load (binOf env cuda_file
                        (env.digestHex (dInOf env cuda_file src lines nvccCmd))) with
                    | none =>
                      ⟨Except.error Err.loadFail, fs2, reg,
                        [Ev.runPreprocess,
                         Ev.isfile (binOf env cuda_file
                           (env.digestHex (dInOf env cuda_file src lines nvccCmd))) false,
                         Ev.runCompile, Ev.makedirs (cudaCachePath env),
                         Ev.copyfile (interOf env cuda_file) art,
                         Ev.rename (interOf env cuda_file)
                           (binOf env cuda_file
                             (env.digestHex (dInOf env cuda_file src lines nvccCmd))),
                         Ev.loadLib (binOf env cuda_file
                           (env.digestHex (dInOf env cuda_file src lines nvccCmd)))]⟩
                    | some plugin =>
                      ⟨Except.ok plugin, fs2, (cuda_file, plugin) :: reg,
                        [Ev.runPreprocess,
                         Ev.isfile (binOf env cuda_file
                           (env.digestHex (dInOf env cuda_file src lines nvccCmd))) false,
                         Ev.runCompile, Ev.makedirs (cudaCachePath env),
                         Ev.copyfile (interOf env cuda_file) art,
                         Ev.rename (interOf env cuda_file)
                           (binOf env cuda_file
                             (env.digestHex (dInOf env cuda_file src lines nvccCmd))),
                         Ev.loadLib (binOf env cuda_file
                           (env.digestHex (dInOf env cuda_file src lines nvccCmd)))]⟩

/-- The environment cannot make `_prepare_nvcc_cli` raise: the platform is
not Windows-without-a-compiler-directory. -/
def prepOk (env : Env) : Prop :=
  ¬ (env.osName = OS.nt ∧ _find_compiler_bindir env.isdir = none)

/-- Hex digests of the expected widths: `hashlib.md5` hex digests have 32
characters and so do `uuid.uuid4().hex` strings. -/
def HexWidths (env : Env) : Prop :=
  (∀ s : Bytes, (env.digestHex s).length = 32) ∧ env.uuidHex.length = 32

/-- Boolean success test for the result of `_prepare_nvcc_cli`. -/
def isOkE : Except Err Bytes → Bool
  | Except.ok _ => true
  | Except.error _ => false

/-- A concrete POSIX environment in which every external step succeeds; used
to evaluate the model on closed inputs. -/
def envP : Env :=
  { osName := OS.posix
    isdir := fun _ => false
    tfInclude := [105]
    tfLib := [108]
    tfVersion := [49]
    dirFile := [100]
    tmpDirPre := [116]
    readSrc := some [120]
    ppLines := some []
    gpuArch := some [115]
    compiled := some [7, 8]
    load := fun _ => some 5
    digestHex := fun _ => List.replicate 32 48
    uuidHex := List.replicate 32 97 }

/-- The same environment with a failing source read. -/
def envF : Env := { envP with readSrc := none }

/-- The same environment on Windows (where no compiler directory exists,
since `isdir` is constantly false). -/
def envN : Env := { envP with osName := OS.nt }

/-- The empty filesystem. -/
def fs00 : FS := fun _ => none

/-- A concrete source path used for closed evaluations. -/
def fcu : Bytes := strBytes "/a.cu"

/-- A filesystem in which the path `[98]` is already occupied. -/
def fsOcc : FS := fun q => if q = [98] then some [1] else none

/-- Byte test for "not a double quote". -/
def notQuote (b : Nat) : Bool := !(b == 34)

/-- First concrete absolute path for the portability counterexample. -/
def pA : Bytes := strBytes "/a/x.cu"

/-- Second concrete absolute path, same directory, different basename. -/
def pB : Bytes := strBytes "/a/y.cu"

/-- Two concrete absolute paths sharing the basename `x.cu`. -/
def pU1 : Bytes := strBytes "/u1/x.cu"

/-- Second concrete path with the same basename in another directory. -/
def pU2 : Bytes := strBytes "/u2/x.cu"

/-- A concrete one-line template with a literal chunk and a path placeholder. -/
def tmplW : List (List Tok) := [[Tok.lit [65], Tok.ph]]

theorem foldl_hash_append (bad good : Bytes) (lines : List Bytes) (a : Bytes) :
    lines.foldl
      (fun acc ln => if keepLine ln then acc ++ replaceAll bad good ln else acc)
      a = a ++ normalizedPP bad good lines := by
  induction lines generalizing a with
  | nil => simp [normalizedPP]
  | cons ln rest ih =>
    by_cases h : keepLine ln
    · simp only [List.foldl_cons, h, if_pos, ih, normalizedPP, List.filter_cons,
        List.map_cons, List.flatten_cons, List.append_assoc]
    · simp only [List.foldl_cons, h, if_neg, Bool.false_eq_true,
        not_false_iff, ih, normalizedPP, List.filter_cons, List.append_assoc]

theorem digestInput_eq_segStream (src bad good : Bytes) (lines : List Bytes)
    (nvccCmd tfVer tag : Bytes) :
    digestInput src true bad good lines nvccCmd tfVer tag =
      segStream src (normalizedPP bad good lines)
        [nvccLabel ++ nvccCmd, tfLabel ++ tfVer, tagLabel ++ tag] := by
  simp [digestInput, segStream, joinln, foldl_hash_append, List.append_assoc]

theorem chunk_delim_eq : ∀ (c1 : Bytes) (c2 r1 r2 : Bytes), ¬ 10 ∈ c1 → ¬ 10 ∈ c2 →
    c1 ++ 10 :: r1 = c2 ++ 10 :: r2 → c1 = c2 ∧ r1 = r2 := by
  intro c1
  induction c1 with
  | nil =>
    intro c2 r1 r2 _ h2 h
    cases c2 with
    | nil => simpa using h
    | cons b t =>
      simp only [List.nil_append, List.cons_append, List.cons.injEq] at h
      exact absurd (h.1 ▸ List.mem_cons_self b t) h2
  | cons a t ih =>
    intro c2 r1 r2 h1 h2 h
    cases c2 with
    | nil =>
      simp only [List.nil_append, List.cons_append, List.cons.injEq] at h
      exact absurd (h.1 ▸ List.mem_cons_self a t) h1
    | cons b t2 =>
      simp only [List.cons_append, List.cons.injEq] at h
      have hrec := ih t2 r1 r2 (fun hm => h1 (List.mem_cons_of_mem a hm))
        (fun hm => h2 (List.mem_cons_of_mem b hm)) h.2
      exact ⟨by rw [h.1, hrec.1], hrec.2⟩

theorem joinln_inj : ∀ (cs1 cs2 : List Bytes), (∀ c ∈ cs1, ¬ 10 ∈ c) →
    (∀ c ∈ cs2, ¬ 10 ∈ c) → joinln cs1 = joinln cs2 → cs1 = cs2 := by
  intro cs1
  induction cs1 with
  | nil =>
    intro cs2 _ _ h
    cases cs2 with
    | nil => rfl
    | cons c t => simp [joinln] at h
  | cons c t ih =>
    intro cs2 h1 h2 h
    cases cs2 with
    | nil => simp [joinln] at h
    | cons c2 t2 =>
      simp only [joinln, List.map_cons, List.flatten_cons, List.append_assoc,
        List.singleton_append] at h
      have hc := chunk_delim_eq c c2 ((t.map (fun x => x ++ [10])).flatten)
        ((t2.map (fun x => x ++ [10])).flatten)
        (h1 c (List.mem_cons_self c t)) (h2 c2 (List.mem_cons_self c2 t2)) h
      have ht := ih t2 (fun x hx => h1 x (List.mem_cons_of_mem c hx))
        (fun x hx => h2 x (List.mem_cons_of_mem c2 hx)) hc.2
      rw [hc.1, ht]

theorem segStream_eq_joinln (src pp : Bytes) (cfgs : List Bytes) :
    segStream src pp cfgs = joinln (src :: pp :: cfgs) := by
  simp [segStream, joinln, List.append_assoc]

/-- C4 counterexample: the delimited stream identifies two distinct triples,
because the newline delimiter can occur inside a segment: the source
`[97, 10, 98]` with preprocessed bytes `[99]` feeds exactly the same byte
stream to the digest as the source `[97]` with preprocessed bytes
`[98, 10, 99]`. -/
theorem segStream_not_injective :
    segStream [97, 10, 98] [99] [] = segStream [97] [98, 10, 99] [] ∧
      ¬ (([97, 10, 98] : Bytes) = [97] ∧ ([99] : Bytes) = [98, 10, 99]) := by
  decide

/-- C4 (amended): the mapping from the triple (raw source bytes, normalized
preprocessed bytes, ordered build-config strings) to the delimited byte
stream fed to the digest is injective on triples whose segments do not
themselves contain the delimiter byte; without that restriction the claim is
false (see the counterexample). -/
theorem segStream_injective (s1 p1 s2 p2 : Bytes) (cs1 cs2 : List Bytes)
    (hs1 : ¬ 10 ∈ s1) (hp1 : ¬ 10 ∈ p1) (hc1 : ∀ c ∈ cs1, ¬ 10 ∈ c)
    (hs2 : ¬ 10 ∈ s2) (hp2 : ¬ 10 ∈ p2) (hc2 : ∀ c ∈ cs2, ¬ 10 ∈ c)
    (heq : segStream s1 p1 cs1 = segStream s2 p2 cs2) :
    s1 = s2 ∧ p1 = p2 ∧ cs1 = cs2 := by
  have h := joinln_inj (s1 :: p1 :: cs1) (s2 :: p2 :: cs2)
    (by
      intro c hc
      rcases List.mem_cons.1 hc with h | hc
      · exact h ▸ hs1
      rcases List.mem_cons.1 hc with h | hc
      · exact h ▸ hp1
      · exact hc1 c hc)
    (by
      intro c hc
      rcases List.mem_cons.1 hc with h | hc
      · exact h ▸ hs2
      rcases List.mem_cons.1 hc with h | hc
      · exact h ▸ hp2
      · exact hc2 c hc)
    (by rw [← segStream_eq_joinln, ← segStream_eq_joinln]; exact heq)
  simp only [List.cons.injEq] at h
  exact ⟨h.1, h.2.1, h.2.2⟩

theorem segStream_injective_witness :
    (¬ 10 ∈ ([97] : Bytes)) ∧
      (([97] : Bytes) = [97] ∧ ([98] : Bytes) = [98] ∧ ([[99]] : List Bytes) = [[99]]) :=
  ⟨by decide,
    segStream_injective [97] [98] [97] [98] [[99]] [[99]] (by decide) (by decide)
      (by decide) (by decide) (by decide) (by decide) rfl⟩

/-- C5: the digest stream is accumulated as (1) the raw source bytes followed
by a delimiter, then (2) with header hashing enabled, the preprocessed output
with pragma lines skipped and the quoted source path replaced by the quoted
basename in the remaining lines, followed by a delimiter, then (3) the three
labelled build-configuration strings (toolchain command line, framework
version, cache version tag) in that order, each followed by a delimiter. -/
theorem digestInput_order (os : OS) (f src : Bytes) (lines : List Bytes)
    (nvccCmd tfVer tag : Bytes) :
    digestInput src true (badFileStr f) (goodFileStr os f) lines nvccCmd tfVer tag =
      src ++ [10]
        ++ (normalizedPP (badFileStr f) (goodFileStr os f) lines ++ [10])
        ++ (nvccLabel ++ nvccCmd ++ [10])
        ++ (tfLabel ++ tfVer ++ [10])
        ++ (tagLabel ++ tag ++ [10]) := by
  rw [digestInput_eq_segStream]
  simp [segStream, joinln, List.append_assoc]

/-- C10: two preprocessed outputs that agree after dropping every line that
starts with `# ` or `#line ` and substituting the quoted basename for the
quoted path in the remaining lines yield the same digest stream for the same
source bytes and build configuration, and hence the same cache entry path for
any digest function. -/
theorem pragma_insensitive (os : OS) (f src : Bytes) (lines1 lines2 : List Bytes)
    (nvccCmd tfVer tag : Bytes)
    (h : normalizedPP (badFileStr f) (goodFileStr os f) lines1 =
      normalizedPP (badFileStr f) (goodFileStr os f) lines2) :
    digestInput src true (badFileStr f) (goodFileStr os f) lines1 nvccCmd tfVer tag =
        digestInput src true (badFileStr f) (goodFileStr os f) lines2 nvccCmd tfVer tag ∧
      ∀ (dh : Bytes → Bytes) (cacheDir : Bytes),
        binFileName os cacheDir (stemOf os f)
            (dh (digestInput src true (badFileStr f) (goodFileStr os f) lines1
              nvccCmd tfVer tag)) =
          binFileName os cacheDir (stemOf os f)
            (dh (digestInput src true (badFileStr f) (goodFileStr os f) lines2
              nvccCmd tfVer tag)) := by
  have hd : digestInput src true (badFileStr f) (goodFileStr os f) lines1 nvccCmd tfVer tag =
      digestInput src true (badFileStr f) (goodFileStr os f) lines2 nvccCmd tfVer tag := by
    rw [digestInput_eq_segStream, digestInput_eq_segStream, h]
  exact ⟨hd, fun dh cacheDir => by rw [hd]⟩

theorem pragma_insensitive_witness :
    normalizedPP (badFileStr fcu) (goodFileStr OS.posix fcu) [[35, 32, 97, 10]] =
        normalizedPP (badFileStr fcu) (goodFileStr OS.posix fcu) [] ∧
      digestInput [120] true (badFileStr fcu) (goodFileStr OS.posix fcu)
          [[35, 32, 97, 10]] [110] [49] [118] =
        digestInput [120] true (badFileStr fcu) (goodFileStr OS.posix fcu)
          [] [110] [49] [118] :=
  ⟨by decide,
    (pragma_insensitive OS.posix fcu [120] [[35, 32, 97, 10]] [] [110] [49] [118]
      (by decide)).1⟩

theorem replGo_skip (pat rep : Bytes) : ∀ (l : Bytes) (k : Nat),
    replGo pat rep l k = replGo pat rep (l.drop k) 0 := by
  intro l
  induction l with
  | nil => intro k; cases k <;> simp [replGo]
  | cons a t ih =>
    intro k
    cases k with
    | zero => rfl
    | succ j =>
      rw [List.drop_succ_cons]
      exact (ih j).symm ▸ rfl

theorem replGo_noMatch (pt rep : Bytes) (a : Nat) (t : Bytes) (ha : a ≠ 34) :
    replGo (34 :: pt) rep (a :: t) 0 = a :: replGo (34 :: pt) rep t 0 := by
  simp only [replGo]
  rw [if_neg]
  intro h
  obtain ⟨hp, _⟩ := h
  simp only [List.isPrefixOf, Bool.and_eq_true, beq_iff_eq] at hp
  exact ha hp.1.symm

theorem replGo_chunk (pt rep rest : Bytes) : ∀ c : Bytes, ¬ 34 ∈ c →
    replGo (34 :: pt) rep (c ++ rest) 0 = c ++ replGo (34 :: pt) rep rest 0 := by
  intro c
  induction c with
  | nil => intro _; simp
  | cons a t ih =>
    intro hc
    have ha : a ≠ 34 := fun h => hc (h ▸ List.mem_cons_self a t)
    rw [List.cons_append, replGo_noMatch pt rep a (t ++ rest) ha,
      ih (fun hm => hc (List.mem_cons_of_mem a hm)), List.cons_append]

theorem replGo_planted (pt rep rest : Bytes) :
    replGo (34 :: pt) rep ((34 :: pt) ++ rest) 0 =
      rep ++ replGo (34 :: pt) rep rest 0 := by
  rw [List.cons_append]
  simp only [replGo]
  rw [if_pos]
  · rw [replGo_skip]
    have hd : (pt ++ rest).drop ((34 :: pt).length - 1) = rest := by
      simp [List.drop_left]
    rw [hd]
  · constructor
    · rw [List.isPrefixOf_iff_prefix]
      exact ⟨rest, by simp⟩
    · simp

theorem replaceAll_render (pt rep : Bytes) : ∀ lt : List Tok, LitQuoteFree lt →
    replaceAll (34 :: pt) rep (renderLine (34 :: pt) lt) = renderLine rep lt := by
  intro lt
  induction lt with
  | nil => intro _; rfl
  | cons tok rest ih =>
    intro hq
    have hrest : LitQuoteFree rest := fun d hd => hq d (List.mem_cons_of_mem _ hd)
    cases tok with
    | lit c =>
      have hc : ¬ 34 ∈ c := hq c (List.mem_cons_self _ _)
      simp only [renderLine, List.map_cons, List.flatten_cons, renderTok]
      show replGo (34 :: pt) rep (c ++ (rest.map (renderTok (34 :: pt))).flatten) 0 = _
      rw [replGo_chunk pt rep _ c hc]
      exact congrArg (c ++ ·) (ih hrest)
    | ph =>
      simp only [renderLine, List.map_cons, List.flatten_cons, renderTok]
      show replGo (34 :: pt) rep ((34 :: pt) ++ (rest.map (renderTok (34 :: pt))).flatten) 0 = _
      rw [replGo_planted pt rep]
      exact congrArg (rep ++ ·) (ih hrest)

theorem takeWhile_append_sat (p : Nat → Bool) (rest : Bytes) : ∀ c : Bytes,
    (∀ b ∈ c, p b = true) →
    (c ++ rest).takeWhile p = c ++ rest.takeWhile p := by
  intro c
  induction c with
  | nil => intro _; simp
  | cons a t ih =>
    intro h
    rw [List.cons_append, List.takeWhile_cons_of_pos (h a (List.mem_cons_self a t)),
      ih (fun b hb => h b (List.mem_cons_of_mem a hb)), List.cons_append]

theorem isPrefixOf_takeWhile_notQuote : ∀ q : Bytes, ¬ 34 ∈ q → ∀ l : Bytes,
    q.isPrefixOf l = q.isPrefixOf (l.takeWhile notQuote) := by
  intro q
  induction q with
  | nil => intro _ l; simp [List.isPrefixOf]
  | cons a q2 ih =>
    intro hq l
    have ha : a ≠ 34 := fun h => hq (h ▸ List.mem_cons_self a q2)
    have hq2 : ¬ 34 ∈ q2 := fun hm => hq (List.mem_cons_of_mem a hm)
    cases l with
    | nil => simp
    | cons b t =>
      by_cases hb : b = 34
      · subst hb
        rw [List.takeWhile_cons_of_neg (by simp [notQuote])]
        simp only [List.isPrefixOf, Bool.and_eq_true, beq_iff_eq]
        simp [ha]
      · rw [List.takeWhile_cons_of_pos (by simp [notQuote, hb])]
        simp only [List.isPrefixOf]
        rw [ih hq2 t]

theorem takeWhile_render (pt1 pt2 : Bytes) : ∀ lt : List Tok, LitQuoteFree lt →
    (renderLine (34 :: pt1) lt).takeWhile notQuote =
      (renderLine (34 :: pt2) lt).takeWhile notQuote := by
  intro lt
  induction lt with
  | nil => intro _; rfl
  | cons tok rest ih =>
    intro hq
    have hrest : LitQuoteFree rest := fun d hd => hq d (List.mem_cons_of_mem _ hd)
    cases tok with
    | lit c =>
      have hc : ∀ b ∈ c, notQuote b = true := by
        intro b hb
        have hb34 : b ≠ 34 := fun h => hq c (List.mem_cons_self _ _) (h ▸ hb)
        simp [notQuote, hb34]
      simp only [renderLine, List.map_cons, List.flatten_cons, renderTok]
      rw [takeWhile_append_sat notQuote _ c hc, takeWhile_append_sat notQuote _ c hc]
      exact congrArg (c ++ ·) (ih hrest)
    | ph =>
      simp only [renderLine, List.map_cons, List.flatten_cons, renderTok,
        List.cons_append]
      rw [List.takeWhile_cons_of_neg (by simp [notQuote]),
        List.takeWhile_cons_of_neg (by simp [notQuote])]

theorem keepLine_render (pt1 pt2 : Bytes) (lt : List Tok) (hq : LitQuoteFree lt) :
    keepLine (renderLine (34 :: pt1) lt) = keepLine (renderLine (34 :: pt2) lt) := by
  unfold keepLine
  rw [isPrefixOf_takeWhile_notQuote pragmaHash (by decide) (renderLine (34 :: pt1) lt),
    isPrefixOf_takeWhile_notQuote pragmaHash (by decide) (renderLine (34 :: pt2) lt),
    isPrefixOf_takeWhile_notQuote pragmaLine (by decide) (renderLine (34 :: pt1) lt),
    isPrefixOf_takeWhile_notQuote pragmaLine (by decide) (renderLine (34 :: pt2) lt),
    takeWhile_render pt1 pt2 lt hq]

theorem normalizedPP_render (pt1 pt2 rep : Bytes) : ∀ T : List (List Tok),
    (∀ lt ∈ T, LitQuoteFree lt) →
    normalizedPP (34 :: pt1) rep (T.map (fun lt => renderLine (34 :: pt1) lt)) =
      normalizedPP (34 :: pt2) rep (T.map (fun lt => renderLine (34 :: pt2) lt)) := by
  intro T
  induction T with
  | nil => intro _; rfl
  | cons lt rest ih =>
    intro hT
    have hhd : LitQuoteFree lt := hT lt (List.mem_cons_self _ _)
    have htl := ih (fun x hx => hT x (List.mem_cons_of_mem lt hx))
    have hk := keepLine_render pt1 pt2 lt hhd
    simp only [normalizedPP, List.map_cons, List.filter_cons] at htl ⊢
    by_cases hkeep : keepLine (renderLine (34 :: pt1) lt) = true
    · have hkeep2 : keepLine (renderLine (34 :: pt2) lt) = true := hk ▸ hkeep
      rw [if_pos hkeep, if_pos hkeep2]
      simp only [List.map_cons, List.flatten_cons]
      rw [replaceAll_render pt1 rep lt hhd, replaceAll_render pt2 rep lt hhd, htl]
    · have hkeep2 : ¬ keepLine (renderLine (34 :: pt2) lt) = true := fun h => hkeep (hk ▸ h)
      rw [if_neg hkeep, if_neg hkeep2]
      exact htl

/-- C2 counterexample: byte-identical source at two distinct absolute paths
with preprocessed outputs rendered from one common template (identical except
that each contains its own quoted source path) can yield different digest
streams and different final cache file names: the digest input retains the
quoted basename, and the cache file name embeds the source file stem, so
paths with different basenames break the claim. -/
theorem path_portability_cex :
    ¬ (digestInput [1] true (badFileStr pA) (goodFileStr OS.posix pA)
          [renderLine (badFileStr pA) [Tok.ph]] [110] [49] [118] =
        digestInput [1] true (badFileStr pB) (goodFileStr OS.posix pB)
          [renderLine (badFileStr pB) [Tok.ph]] [110] [49] [118]) ∧
      ¬ (binFileName OS.posix [99] (stemOf OS.posix pA) [104] =
          binFileName OS.posix [99] (stemOf OS.posix pB) [104]) := by
  decide

/-- C2 (amended): for two invocations with byte-identical source content at
two distinct absolute paths that share the same base filename, the same build
configuration, and preprocessed outputs rendered from one common template
(identical except that each contains its own source path in quoted form, with
no stray double quotes in the shared text), the digest stream and hence the
final cache file name agree; without the same-basename restriction the claim
fails (see the counterexample). -/
theorem path_portability (os : OS) (T : List (List Tok))
    (p1 p2 src nvccCmd tfVer tag : Bytes)
    (hT : ∀ lt ∈ T, LitQuoteFree lt)
    (hb : basenameOS os p1 = basenameOS os p2) :
    digestInput src true (badFileStr p1) (goodFileStr os p1)
        (T.map (fun lt => renderLine (badFileStr p1) lt)) nvccCmd tfVer tag =
      digestInput src true (badFileStr p2) (goodFileStr os p2)
        (T.map (fun lt => renderLine (badFileStr p2) lt)) nvccCmd tfVer tag ∧
    ∀ (dh : Bytes → Bytes) (cacheDir : Bytes),
      binFileName os cacheDir (stemOf os p1)
          (dh (digestInput src true (badFileStr p1) (goodFileStr os p1)
            (T.map (fun lt => renderLine (badFileStr p1) lt)) nvccCmd tfVer tag)) =
        binFileName os cacheDir (stemOf os p2)
          (dh (digestInput src true (badFileStr p2) (goodFileStr os p2)
            (T.map (fun lt => renderLine (badFileStr p2) lt)) nvccCmd tfVer tag)) := by
  have hgood : goodFileStr os p1 = goodFileStr os p2 := by
    unfold goodFileStr
    rw [hb]
  have hstem : stemOf os p1 = stemOf os p2 := by
    unfold stemOf
    rw [hb]
  have hbad1 : badFileStr p1 = 34 :: (normSlash p1 ++ [34]) := rfl
  have hbad2 : badFileStr p2 = 34 :: (normSlash p2 ++ [34]) := rfl
  have hpp := normalizedPP_render (normSlash p1 ++ [34]) (normSlash p2 ++ [34])
    (goodFileStr os p2) T hT
  have hd : digestInput src true (badFileStr p1) (goodFileStr os p1)
      (T.map (fun lt => renderLine (badFileStr p1) lt)) nvccCmd tfVer tag =
      digestInput src true (badFileStr p2) (goodFileStr os p2)
        (T.map (fun lt => renderLine (badFileStr p2) lt)) nvccCmd tfVer tag := by
    rw [digestInput_eq_segStream, digestInput_eq_segStream, hgood, hbad1, hbad2, hpp]
  exact ⟨hd, fun dh cacheDir => by rw [hd, hstem]⟩

theorem path_portability_witness :
    basenameOS OS.posix pU1 = basenameOS OS.posix pU2 ∧
      digestInput [1] true (badFileStr pU1) (goodFileStr OS.posix pU1)
          (tmplW.map (fun lt => renderLine (badFileStr pU1) lt)) [110] [49] [118] =
        digestInput [1] true (badFileStr pU2) (goodFileStr OS.posix pU2)
          (tmplW.map (fun lt => renderLine (badFileStr pU2) lt)) [110] [49] [118] :=
  ⟨by decide,
    (path_portability OS.posix tmplW pU1 pU2 [1] [110] [49] [118]
      (by
        intro lt hlt c hc
        simp only [tmplW, List.mem_singleton] at hlt
        subst hlt
        simp only [List.mem_cons, List.not_mem_nil, or_false] at hc
        rcases hc with hc | hc
        · cases hc
          decide
        · cases hc)
      (by decide)).1⟩

theorem lookup_cons_self (f : Bytes) (h : Nat) (reg : Reg) :
    List.lookup f ((f, h) :: reg) = some h := by
  simp [List.lookup]

theorem gp_hit (env : Env) (fs : FS) (reg : Reg) (f : Bytes) (h : Nat)
    (hl : reg.lookup f = some h) :
    get_plugin env fs reg f = ⟨Except.ok h, fs, reg, []⟩ := by
  unfold get_plugin
  rw [hl]

theorem gp_master (env : Env) (fs : FS) (reg : Reg) (f : Bytes) :
    ((∃ h, (get_plugin env fs reg f).result = Except.ok h ∧
        ((get_plugin env fs reg f).reg).lookup f = some h) ∨
      ((∃ e, (get_plugin env fs reg f).result = Except.error e) ∧
        (get_plugin env fs reg f).reg = reg ∧ reg.lookup f = none)) ∧
      countCompiles (get_plugin env fs reg f).trace ≤ 1 ∧
      countIsfile (get_plugin env fs reg f).trace ≤ 1 := by
  unfold get_plugin
  split
  next plugin hl =>
    exact ⟨Or.inl ⟨plugin, rfl, hl⟩, by simp [countCompiles], by simp [countIsfile]⟩
  next hl =>
    split
    next =>
      exact ⟨Or.inr ⟨⟨Err.srcReadFail, rfl⟩, rfl, hl⟩, by simp [countCompiles],
        by simp [countIsfile]⟩
    next src hs =>
      split
      next e hp =>
        exact ⟨Or.inr ⟨⟨e, rfl⟩, rfl, hl⟩, by simp [countCompiles],
          by simp [countIsfile]⟩
      next cmd hp =>
        split
        next =>
          exact ⟨Or.inr ⟨⟨Err.preprocessFail, rfl⟩, rfl, hl⟩,
            by simp [countCompiles, List.countP_cons, List.countP_nil],
            by simp [countIsfile, List.countP_cons, List.countP_nil]⟩
        next lines hpL =>
          split
          next =>
            exact ⟨Or.inr ⟨⟨Err.noGpu, rfl⟩, rfl, hl⟩,
              by simp [countCompiles, List.countP_cons, List.countP_nil],
              by simp [countIsfile, List.countP_cons, List.countP_nil]⟩
          next arch hg =>
            split
            next e hp2 =>
              exact ⟨Or.inr ⟨⟨e, rfl⟩, rfl, hl⟩,
                by simp [countCompiles, List.countP_cons, List.countP_nil],
                by simp [countIsfile, List.countP_cons, List.countP_nil]⟩
            next nvccCmd hp2 =>
              split
              next hsome =>
                split
                next =>
                  exact ⟨Or.inr ⟨⟨Err.loadFail, rfl⟩, rfl, hl⟩,
                    by simp [countCompiles, List.countP_cons, List.countP_nil],
                    by simp [countIsfile, List.countP_cons, List.countP_nil]⟩
                next plugin hload =>
                  exact ⟨Or.inl ⟨plugin, rfl, lookup_cons_self f plugin reg⟩,
                    by simp [countCompiles, List.countP_cons, List.countP_nil],
                    by simp [countIsfile, List.countP_cons, List.countP_nil]⟩
              next hnone =>
                split
                next =>
                  exact ⟨Or.inr ⟨⟨Err.compileFail, rfl⟩, rfl, hl⟩,
                    by simp [countCompiles, List.countP_cons, List.countP_nil],
                    by simp [countIsfile, List.countP_cons, List.countP_nil]⟩
                next art hcomp =>
                  split
                  next fs1 e hpub =>
                    exact ⟨Or.inr ⟨⟨e, rfl⟩, rfl, hl⟩,
                      by simp [countCompiles, List.countP_cons, List.countP_nil],
                      by simp [countIsfile, List.countP_cons, List.countP_nil]⟩
                  next fs2 hpub =>
                    split
                    next =>
                      exact ⟨Or.inr ⟨⟨Err.loadFail, rfl⟩, rfl, hl⟩,
                        by simp [countCompiles, List.countP_cons, List.countP_nil],
                        by simp [countIsfile, List.countP_cons, List.countP_nil]⟩
                    next plugin hload =>
                      exact ⟨Or.inl ⟨plugin, rfl, lookup_cons_self f plugin reg⟩,
                        by simp [countCompiles, List.countP_cons, List.countP_nil],
                        by simp [countIsfile, List.countP_cons, List.countP_nil]⟩

/-- C6: a failing `get_plugin` call propagates the error as its result and
leaves the in-process plugin registry unchanged; moreover no entry existed
for this source beforehand (registry hits never fail), so a subsequent call
re-attempts the full protocol instead of short-circuiting. -/
theorem failure_keeps_registry (env : Env) (fs : FS) (reg : Reg) (f : Bytes)
    (e : Err) (h : (get_plugin env fs reg f).result = Except.error e) :
    (get_plugin env fs reg f).reg = reg ∧ reg.lookup f = none := by
  obtain ⟨hc, -, -⟩ := gp_master env fs reg f
  rcases hc with ⟨h2, hok, -⟩ | ⟨-, hreg2, hnone⟩
  · rw [h] at hok
    cases hok
  · exact ⟨hreg2, hnone⟩

theorem failure_keeps_registry_witness :
    (get_plugin envF fs00 [] fcu).result = Except.error Err.srcReadFail ∧
      (get_plugin envF fs00 [] fcu).reg = [] ∧ List.lookup fcu ([] : Reg) = none :=
  ⟨rfl, failure_keeps_registry envF fs00 [] fcu Err.srcReadFail rfl⟩

/-- C3: if a first `get_plugin` call for a source file succeeds, then the
combined executions of that call and a second call for the same file (against
the filesystem and registry the first call left behind, with an arbitrary
second environment) invoke the external compiler at most once in total; the
second call is served from the registry entry, returns the same handle, and
performs no external operation at all. -/
theorem build_or_reuse_idempotent (env1 env2 : Env) (fs0 : FS) (reg0 : Reg)
    (f : Bytes) (h : Nat)
    (h1 : (get_plugin env1 fs0 reg0 f).result = Except.ok h) :
    countCompiles (get_plugin env1 fs0 reg0 f).trace +
        countCompiles (get_plugin env2 (get_plugin env1 fs0 reg0 f).fs
          (get_plugin env1 fs0 reg0 f).reg f).trace ≤ 1 ∧
      (get_plugin env2 (get_plugin env1 fs0 reg0 f).fs
        (get_plugin env1 fs0 reg0 f).reg f).result = Except.ok h ∧
      (get_plugin env2 (get_plugin env1 fs0 reg0 f).fs
        (get_plugin env1 fs0 reg0 f).reg f).trace = [] := by
  obtain ⟨hc, hcc, -⟩ := gp_master env1 fs0 reg0 f
  rcases hc with ⟨h2, hok, hl⟩ | ⟨⟨e, herr⟩, -, -⟩
  · rw [h1] at hok
    injection hok with hhe
    subst hhe
    have h2nd := gp_hit env2 (get_plugin env1 fs0 reg0 f).fs
      (get_plugin env1 fs0 reg0 f).reg f h hl
    rw [h2nd]
    exact ⟨by simpa [countCompiles] using hcc, rfl, rfl⟩
  · rw [h1] at herr
    cases herr

theorem build_or_reuse_idempotent_witness :
    (get_plugin envP fs00 [] fcu).result = Except.ok 5 ∧
      countCompiles (get_plugin envP fs00 [] fcu).trace +
          countCompiles (get_plugin envP (get_plugin envP fs00 [] fcu).fs
            (get_plugin envP fs00 [] fcu).reg fcu).trace ≤ 1 ∧
      (get_plugin envP (get_plugin envP fs00 [] fcu).fs
        (get_plugin envP fs00 [] fcu).reg fcu).trace = [] :=
  ⟨rfl,
    (build_or_reuse_idempotent envP envP fs00 [] fcu 5 rfl).1,
    (build_or_reuse_idempotent envP envP fs00 [] fcu 5 rfl).2.2⟩

/-- C7: after a first successful `get_plugin` call for a source path, a
second call with the same path (any environment) is answered from the
in-process registry: it returns the identical stored handle, performs no
observable operation (no fingerprint recomputation, no filesystem existence
check, no loader invocation), changes neither the filesystem nor the
registry, and across both calls the cache store is probed at most once. -/
theorem registry_short_circuit (env1 env2 : Env) (fs0 : FS) (reg0 : Reg)
    (f : Bytes) (h : Nat)
    (h1 : (get_plugin env1 fs0 reg0 f).result = Except.ok h) :
    (get_plugin env2 (get_plugin env1 fs0 reg0 f).fs
        (get_plugin env1 fs0 reg0 f).reg f).result = Except.ok h ∧
      (get_plugin env2 (get_plugin env1 fs0 reg0 f).fs
        (get_plugin env1 fs0 reg0 f).reg f).trace = [] ∧
      (get_plugin env2 (get_plugin env1 fs0 reg0 f).fs
        (get_plugin env1 fs0 reg0 f).reg f).fs = (get_plugin env1 fs0 reg0 f).fs ∧
      (get_plugin env2 (get_plugin env1 fs0 reg0 f).fs
        (get_plugin env1 fs0 reg0 f).reg f).reg = (get_plugin env1 fs0 reg0 f).reg ∧
      countIsfile (get_plugin env1 fs0 reg0 f).trace +
        countIsfile (get_plugin env2 (get_plugin env1 fs0 reg0 f).fs
          (get_plugin env1 fs0 reg0 f).reg f).trace ≤ 1 := by
  obtain ⟨hc, -, hci⟩ := gp_master env1 fs0 reg0 f
  rcases hc with ⟨h2, hok, hl⟩ | ⟨⟨e, herr⟩, -, -⟩
  · rw [h1] at hok
    injection hok with hhe
    subst hhe
    have h2nd := gp_hit env2 (get_plugin env1 fs0 reg0 f).fs
      (get_plugin env1 fs0 reg0 f).reg f h hl
    rw [h2nd]
    exact ⟨rfl, rfl, rfl, rfl, by simpa [countIsfile] using hci⟩
  · rw [h1] at herr
    cases herr

theorem registry_short_circuit_witness :
    (get_plugin envP fs00 [] fcu).result = Except.ok 5 ∧
      (get_plugin envP (get_plugin envP fs00 [] fcu).fs
        (get_plugin envP fs00 [] fcu).reg fcu).result = Except.ok 5 ∧
      (get_plugin envP (get_plugin envP fs00 [] fcu).fs
        (get_plugin envP fs00 [] fcu).reg fcu).trace = [] :=
  ⟨rfl,
    (registry_short_circuit envP envP fs00 [] fcu 5 rfl).1,
    (registry_short_circuit envP envP fs00 [] fcu 5 rfl).2.1⟩

/-- C9 counterexample: on POSIX, when no entry of the compiler search path is
a directory, `_prepare_nvcc_cli` does not fail: it returns a command line
without the compiler-bindir flag (the fatal error exists only on Windows), so
the claim that every compiler-less invocation aborts is false. -/
theorem compiler_missing_not_fatal_on_posix :
    _find_compiler_bindir envP.isdir = none ∧ envP.osName = OS.posix ∧
      isOkE (_prepare_nvcc_cli envP []) = true := by
  decide

/-- C9 (amended): only on Windows (`os.name == 'nt'`) does a missing compiler
installation directory make command preparation fail, with the fatal
`RuntimeError` of source lines 81-84; the enclosing `get_plugin` request then
aborts before any toolchain invocation (its trace is empty). On POSIX the
flag is silently omitted instead (see the counterexample). -/
theorem compiler_missing_fatal_on_nt (env : Env) (opts : Bytes) (fs : FS)
    (reg : Reg) (f src : Bytes) (hnt : env.osName = OS.nt)
    (hfind : _find_compiler_bindir env.isdir = none)
    (hreg : reg.lookup f = none) (hsrc : env.readSrc = some src) :
    _prepare_nvcc_cli env opts = Except.error Err.compilerMissing ∧
      (get_plugin env fs reg f).result = Except.error Err.compilerMissing ∧
      (get_plugin env fs reg f).trace = [] := by
  have hp : ∀ o : Bytes, _prepare_nvcc_cli env o = Except.error Err.compilerMissing := by
    intro o
    unfold _prepare_nvcc_cli
    rw [hfind, hnt]
    simp
  refine ⟨hp opts, ?_, ?_⟩ <;>
    · unfold get_plugin
      rw [hreg, hsrc, hp (ppOptsOf env f)]

theorem compiler_missing_fatal_on_nt_witness :
    envN.osName = OS.nt ∧ _find_compiler_bindir envN.isdir = none ∧
      (get_plugin envN fs00 [] fcu).result = Except.error Err.compilerMissing ∧
      (get_plugin envN fs00 [] fcu).trace = [] :=
  ⟨rfl, by decide,
    (compiler_missing_fatal_on_nt envN [] fs00 [] fcu [120] rfl (by decide) rfl
      rfl).2.1,
    (compiler_missing_fatal_on_nt envN [] fs00 [] fcu [120] rfl (by decide) rfl
      rfl).2.2⟩

/-- C8 counterexample: on Windows the rename of publish fails when the final
path already exists: with the destination `[98]` occupied, the publish of an
artifact via the intermediate name `[105]` raises instead of overwriting. -/
theorem publish_rename_fails_on_nt :
    fsOcc [98] = some [1] ∧
      (publish OS.nt fsOcc [105] [98] [7]).2 = some Err.renameExists := by
  decide

/-- C8 (amended): on POSIX (`os.name == 'posix'`) the publish rename succeeds
even when the final fingerprint-named path already exists — last writer wins,
the rename raises no error, and afterwards the final path holds the complete
new artifact bytes; on Windows the rename fails instead of overwriting (see
the counterexample). -/
theorem publish_last_writer_wins (fs : FS) (inter bin art : Bytes) :
    (publish OS.posix fs inter bin art).2 = none ∧
      (publish OS.posix fs inter bin art).1 bin = some art := by
  have h1 : setF fs inter art inter = some art := by
    unfold setF
    rw [if_pos rfl]
  have hcond : ¬ (OS.posix = OS.nt ∧ (setF fs inter art bin).isSome = true) :=
    fun hc => absurd hc.1 (by decide)
  unfold publish osRename
  simp only [h1]
  rw [if_neg hcond]
  refine ⟨rfl, ?_⟩
  simp

theorem publish_fresh (os : OS) (fs : FS) (inter bin art : Bytes)
    (hne : inter ≠ bin) (hmiss : fs bin = none) :
    publish os fs inter bin art =
      ((fun q => if q = bin then some art else if q = inter then none
        else setF fs inter art q), none) := by
  have h1 : setF fs inter art inter = some art := by
    unfold setF
    rw [if_pos rfl]
  have h2 : setF fs inter art bin = none := by
    unfold setF
    rw [if_neg (fun hh => hne hh.symm)]
    exact hmiss
  have hcond : ¬ (os = OS.nt ∧ (setF fs inter art bin).isSome = true) := by
    intro hc
    rw [h2] at hc
    simp at hc
  unfold publish osRename
  simp only [h1]
  rw [if_neg hcond]

theorem pjoin_len (os : OS) (a b1 b2 : Bytes) (hb : b1.head? = b2.head?) :
    (pjoin os a b1).length + b2.length = (pjoin os a b2).length + b1.length := by
  unfold pjoin
  rw [hb]
  by_cases hc1 : b2.head? = some (sepOS os)
  · rw [if_pos hc1, if_pos hc1]
    omega
  · rw [if_neg hc1, if_neg hc1]
    by_cases hc2 : a = []
    · rw [if_pos hc2, if_pos hc2]
      omega
    · rw [if_neg hc2, if_neg hc2]
      by_cases hc3 : a.getLast? = some (sepOS os)
      · rw [if_pos hc3, if_pos hc3]
        simp only [List.length_append]
        omega
      · rw [if_neg hc3, if_neg hc3]
        simp only [List.length_append]
        omega

theorem heads_cons (st x y : Bytes) : (st ++ 95 :: x).head? = (st ++ 95 :: y).head? := by
  cases st <;> simp

theorem inter_ne_bin (env : Env) (f src arch : Bytes) (lines : List Bytes)
    (hw : HexWidths env) :
    interOf env f ≠ binAll env f src arch lines := by
  intro heq
  have hb : (stemOf env.osName f ++ [95] ++ env.uuidHex ++ strBytes "_tmp"
        ++ binExt env.osName).head?
      = (stemOf env.osName f ++ [95]
        ++ env.digestHex (dInOf env f src lines (nvccCmdOf env arch))
        ++ binExt env.osName).head? := by
    simp only [List.append_assoc, List.singleton_append]
    exact heads_cons _ _ _
  have hlen := pjoin_len env.osName (cudaCachePath env) _ _ hb
  have heqlen : (interOf env f).length = (binAll env f src arch lines).length := by
    rw [heq]
  unfold interOf binAll binOf binFileName at heqlen
  have hfin : (stemOf env.osName f ++ [95] ++ env.uuidHex ++ strBytes "_tmp"
      ++ binExt env.osName).length
      = (stemOf env.osName f ++ [95]
        ++ env.digestHex (dInOf env f src lines (nvccCmdOf env arch))
        ++ binExt env.osName).length := by
    omega
  have ht4 : (strBytes "_tmp").length = 4 := rfl
  simp only [List.length_append, List.length_singleton, hw.1, hw.2, ht4] at hfin
  omega

theorem prep_no_raise (env : Env) (hprep : prepOk env) : ∀ o : Bytes,
    _prepare_nvcc_cli env o =
      Except.ok (assembleNvccCmd env o (_find_compiler_bindir env.isdir)) := by
  intro o
  unfold _prepare_nvcc_cli
  cases hf : _find_compiler_bindir env.isdir with
  | some d => rfl
  | none =>
    have hnt : ¬ env.osName = OS.nt := fun h => hprep ⟨h, hf⟩
    rw [if_neg hnt]

/-- C1: on a cache miss with all external steps succeeding, `get_plugin`
publishes by first copying the compiled artifact to an intermediate
cache-root name carrying the uuid suffix — a name distinct from the final
fingerprint-named path — and only then performs a single rename onto the
final path; consequently in every filesystem state observable during the
call, including mid-copy states, the final path either does not exist or
holds the complete artifact bytes. -/
theorem atomic_publish (env : Env) (fs : FS) (reg : Reg) (f src arch art : Bytes)
    (lines : List Bytes) (pl : Nat)
    (hw : HexWidths env) (hprep : prepOk env)
    (hreg : reg.lookup f = none) (hsrc : env.readSrc = some src)
    (hpp : env.ppLines = some lines) (hgpu : env.gpuArch = some arch)
    (hmiss : fs (binAll env f src arch lines) = none)
    (hcomp : env.compiled = some art)
    (hload : env.load (binAll env f src arch lines) = some pl) :
    (get_plugin env fs reg f).trace =
      [Ev.runPreprocess, Ev.isfile (binAll env f src arch lines) false,
       Ev.runCompile, Ev.makedirs (cudaCachePath env),
       Ev.copyfile (interOf env f) art,
       Ev.rename (interOf env f) (binAll env f src arch lines),
       Ev.loadLib (binAll env f src arch lines)] ∧
      interOf env f ≠ binAll env f src arch lines ∧
      (get_plugin env fs reg f).result = Except.ok pl ∧
      ∀ g ∈ obsStates fs (get_plugin env fs reg f).trace,
        g (binAll env f src arch lines) = none ∨
          g (binAll env f src arch lines) = some art := by
  have hne := inter_ne_bin env f src arch lines hw
  have hprep2 := prep_no_raise env hprep
  simp only [binAll, nvccCmdOf] at hmiss hload hne ⊢
  have hpub := publish_fresh env.osName fs (interOf env f)
    (binOf env f (env.digestHex (dInOf env f src lines
      (assembleNvccCmd env (compileOpts env arch) (_find_compiler_bindir env.isdir)))))
    art hne hmiss
  have hgp : get_plugin env fs reg f =
      ⟨Except.ok pl,
        (fun q => if q = binOf env f (env.digestHex (dInOf env f src lines
              (assembleNvccCmd env (compileOpts env arch)
                (_find_compiler_bindir env.isdir))))
          then some art
          else if q = interOf env f then none
          else setF fs (interOf env f) art q),
        (f, pl) :: reg,
        [Ev.runPreprocess,
         Ev.isfile (binOf env f (env.digestHex (dInOf env f src lines
           (assembleNvccCmd env (compileOpts env arch)
             (_find_compiler_bindir env.isdir))))) false,
         Ev.runCompile, Ev.makedirs (cudaCachePath env),
         Ev.copyfile (interOf env f) art,
         Ev.rename (interOf env f)
           (binOf env f (env.digestHex (dInOf env f src lines
             (assembleNvccCmd env (compileOpts env arch)
               (_find_compiler_bindir env.isdir))))),
         Ev.loadLib (binOf env f (env.digestHex (dInOf env f src lines
           (assembleNvccCmd env (compileOpts env arch)
             (_find_compiler_bindir env.isdir)))))]⟩ := by
    unfold get_plugin
    simp only [hreg, hsrc, hprep2, hpp, hgpu, hmiss, hcomp, hpub, hload,
      Option.isSome_none, Bool.false_eq_true, if_false]
  rw [hgp]
  refine ⟨rfl, hne, rfl, ?_⟩
  have hsetI : setF fs (interOf env f) art (interOf env f) = some art := by
    unfold setF
    rw [if_pos rfl]
  have hBI : ¬ (binOf env f (env.digestHex (dInOf env f src lines
      (assembleNvccCmd env (compileOpts env arch)
        (_find_compiler_bindir env.isdir)))) = interOf env f) :=
    fun h => hne h.symm
  intro g hg
  simp only [obsStates, duringEv, applyEv, List.cons_append, List.nil_append,
    List.append_nil, List.mem_cons, List.mem_append, List.mem_map,
    List.mem_range, List.not_mem_nil, or_false, hsetI] at hg
  rcases hg with rfl | rfl | rfl | rfl | rfl | ⟨a, -, rfl⟩ | rfl | rfl | rfl
  · exact Or.inl hmiss
  · exact Or.inl hmiss
  · exact Or.inl hmiss
  · exact Or.inl hmiss
  · exact Or.inl hmiss
  · left
    unfold setF
    rw [if_neg hBI]
    exact hmiss
  · left
    unfold setF
    rw [if_neg hBI]
    exact hmiss
  · right
    simp
  · right
    simp

theorem atomic_publish_witness :
    prepOk envP ∧ fs00 (binAll envP fcu [120] [115] []) = none ∧
      (get_plugin envP fs00 [] fcu).result = Except.ok 5 ∧
      interOf envP fcu ≠ binAll envP fcu [120] [115] [] :=
  ⟨by
    unfold prepOk
    decide, rfl,
    (atomic_publish envP fs00 [] fcu [120] [115] [7, 8] [] 5
      ⟨fun s => by simp [envP], by simp [envP]⟩
      (by
        unfold prepOk
        decide) rfl rfl rfl rfl rfl rfl rfl).2.2.1,
    (atomic_publish envP fs00 [] fcu [120] [115] [7, 8] [] 5
      ⟨fun s => by simp [envP], by simp [envP]⟩
      (by
        unfold prepOk
        decide) rfl rfl rfl rfl rfl rfl rfl).2.1⟩
